import Mathlib

/-!
Verification of the HTTP transport core of the rspotify repository
(`src/http/mod.rs` plus its behavioural contract).

Rust strings are UTF-8 byte sequences; we model them as lists of byte
values (`ByteStr := List Nat`, each element `< 256` for meaningful
inputs).  The helper `ascii` turns a Lean string literal made of ASCII
characters into its byte list, so all concrete examples are readable.
-/

namespace Rspotify

/-- Model of a Rust `String` / `&str`: the sequence of its bytes. -/
abbrev ByteStr := List Nat

/-- Bytes of an ASCII string literal (`Char.toNat` is the byte value for
ASCII characters, which is all we use in concrete examples). -/
def ascii (s : String) : ByteStr := s.data.map Char.toNat

/-! ## The `headers` module (`src/http/mod.rs`, lines 20–33) -/

namespace headers

/-- Embeds `pub const AUTHORIZATION: &str = "authorization";`
(`src/http/mod.rs` line 21). -/
def AUTHORIZATION : ByteStr := ascii "authorization"

/-- Embeds `headers::bearer_auth`: `format!("Bearer {}", token)`
(`src/http/mod.rs` lines 24–26). -/
def bearer_auth (token : ByteStr) : ByteStr := ascii "Bearer " ++ token

/-- The standard base64 alphabet `A–Z a–z 0–9 + /` used by
`base64::encode` (standard engine, padding kept). -/
def b64Alphabet : List Nat :=
  ascii "ABCDEFGHIJKLMNOPQRSTUVWXYZabcdefghijklmnopqrstuvwxyz0123456789+/"

/-- The alphabet character for a 6-bit group. -/
def b64Char (n : Nat) : Nat := b64Alphabet.getD n 0

/-- Standard base64 encoding of a byte sequence, padding kept
(`'='` is byte 61): the behaviour of `base64::encode` used by
`headers::basic_auth`. -/
def base64Encode : ByteStr → ByteStr
  | [] => []
  | [a] => [b64Char (a / 4), b64Char (a % 4 * 16), 61, 61]
  | [a, b] => [b64Char (a / 4), b64Char (a % 4 * 16 + b / 16), b64Char (b % 16 * 4), 61]
  | a :: b :: c :: rest =>
      b64Char (a / 4) :: b64Char (a % 4 * 16 + b / 16) ::
      b64Char (b % 16 * 4 + c / 64) :: b64Char (c % 64) :: base64Encode rest

/-- Embeds `headers::basic_auth` (`src/http/mod.rs` lines 29–32):
`value = format!("{}:{}", user, password)` then
`format!("Basic {}", base64::encode(value))`.  Byte 58 is `':'`. -/
def basic_auth (user password : ByteStr) : ByteStr :=
  ascii "Basic " ++ base64Encode (user ++ [58] ++ password)

end headers

/-! ## Header maps (`src/http/mod.rs`, lines 17–18)

`pub type Headers = HashMap<String, String>;`
`pub type FormData = HashMap<String, String>;`
A `HashMap<String, String>` is modelled as an association list of
byte-string pairs with unique keys. -/

/-- Model of `HashMap<String, String>`. -/
abbrev HMap := List (ByteStr × ByteStr)

/-- Embeds `pub type Headers = HashMap<String, String>;`. -/
abbrev Headers := HMap

/-- Embeds `pub type FormData = HashMap<String, String>;`. -/
abbrev FormData := HMap

/-- ASCII lower-casing of one byte (`A`–`Z` map to `a`–`z`). -/
def lowerByte (b : Nat) : Nat := if 65 ≤ b ∧ b ≤ 90 then b + 32 else b

/-- Case-insensitive canonical form of a header key. -/
def lowerKey (k : ByteStr) : ByteStr := k.map lowerByte

/-- Case-insensitive lookup in a header map (HTTP header keys compare
case-insensitively). -/
def lookupCI : HMap → ByteStr → Option ByteStr
  | [], _ => none
  | (k, v) :: rest, key => if lowerKey k = lowerKey key then some v else lookupCI rest key

/-- Replace the entry whose key matches case-insensitively, or append the
pair when no entry matches. -/
def setHeader (m : HMap) (kv : ByteStr × ByteStr) : HMap :=
  match m with
  | [] => [kv]
  | (k, v) :: rest =>
      if lowerKey k = lowerKey kv.1 then (kv.1, kv.2) :: rest else (k, v) :: setHeader rest kv

/-- Modelled from the spec: the backend adapters (`src/http/reqwest.rs`
and `src/http/ureq.rs`, referenced by `src/http/mod.rs` lines 5–8) are
not among the sources.  Per the spec, when no header map is passed the
backend-default headers apply; when one is passed each entry overrides
the default of the same (case-insensitive) key and absent keys retain
the defaults. -/
def effectiveHeaders (defaults : HMap) : Option HMap → HMap
  | none => defaults
  | some m => m.foldl setHeader defaults

/-! ## Error taxonomy and outcome classification

`ClientError` lives in `src/client.rs`, which is not among the sources;
only the webapp example (`examples/webapp/src/main.rs` lines 133–143)
matches on it.  It is modelled from the spec taxonomy. -/

/-- Modelled from the spec: the closed `ClientError` failure taxonomy of
`src/client.rs` (not among the sources): `InvalidAuth` with a message,
`Http` with status and body, `Network` with a cause, `Serialization`
with a message. -/
inductive ClientError where
  | InvalidAuth (msg : ByteStr)
  | Http (status : Nat) (body : ByteStr)
  | Network (cause : ByteStr)
  | Serialization (msg : ByteStr)
  deriving DecidableEq

/-- Embeds `ClientResult<T>` from `src/client.rs` via the spec: success
value or a `ClientError`. -/
inductive ClientResult (α : Type) where
  | ok (val : α)
  | err (e : ClientError)
  deriving DecidableEq

/-- What a (mock) server does with one request: an HTTP response with a
status, a flag telling whether the payload is an auth-failure payload,
and a body; or no connection (unreachable host / timeout) with a cause. -/
inductive ServerReply where
  | reply (status : Nat) (authPayload : Bool) (body : ByteStr)
  | noConnection (cause : ByteStr)

/-- Modelled from the spec: how a backend adapter classifies one network
exchange into the `ClientError` taxonomy (the adapters are not among
the sources).  A 2xx response succeeds with the body as-is; a 401
response with an auth-failure payload is `InvalidAuth`; any other
non-2xx response is `Http`; a failed connection is `Network`. -/
def classify : ServerReply → ClientResult ByteStr
  | .reply s auth body =>
      if 200 ≤ s ∧ s < 300 then .ok body
      else if s = 401 ∧ auth = true then .err (.InvalidAuth body)
      else .err (.Http s body)
  | .noConnection cause => .err (.Network cause)

/-! ## Body encodings -/

/-- Digits of a natural number, as bytes. -/
def natRepr (n : Nat) : ByteStr := (Nat.toDigits 10 n).map Char.toNat

/-- Model of a `serde_json::Value` (the payload type of `get`, `post`,
`put` and `delete` in `src/http/mod.rs`). -/
inductive JVal where
  | null
  | bool (b : Bool)
  | num (n : Int)
  | str (s : ByteStr)
  | arr (xs : List JVal)
  | obj (fields : List (ByteStr × JVal))

/-- JSON string escaping of the two mandatory characters `"` (34) and
`\` (92). -/
def jsonEscape : ByteStr → ByteStr
  | [] => []
  | b :: rest => (if b = 34 ∨ b = 92 then [92, b] else [b]) ++ jsonEscape rest

mutual

/-- Modelled from the spec: JSON serialization of a payload, the body
encoding of `get`/`post`/`put`/`delete` (the backend adapters are not
among the sources).  Bytes 34 `"` 44 `,` 58 `:` 91 `[` 93 `]` 123 open
brace, 125 close brace. -/
def jsonEncode : JVal → ByteStr
  | .null => ascii "null"
  | .bool true => ascii "true"
  | .bool false => ascii "false"
  | .num n => if n < 0 then 45 :: natRepr n.natAbs else natRepr n.toNat
  | .str s => 34 :: jsonEscape s ++ [34]
  | .arr xs => 91 :: jsonEncodeArr xs ++ [93]
  | .obj fs => 123 :: jsonEncodeObj fs ++ [125]

/-- Comma-separated JSON encoding of array elements. -/
def jsonEncodeArr : List JVal → ByteStr
  | [] => []
  | [x] => jsonEncode x
  | x :: y :: rest => jsonEncode x ++ [44] ++ jsonEncodeArr (y :: rest)

/-- Comma-separated JSON encoding of object fields. -/
def jsonEncodeObj : List (ByteStr × JVal) → ByteStr
  | [] => []
  | [(k, v)] => 34 :: jsonEscape k ++ [34, 58] ++ jsonEncode v
  | (k, v) :: f :: rest =>
      34 :: jsonEscape k ++ [34, 58] ++ jsonEncode v ++ [44] ++ jsonEncodeObj (f :: rest)

end

/-- Modelled from the spec: `application/x-www-form-urlencoded` body of
`post_form` — `key1=value1&key2=value2` style (`=` is byte 61, `&` is
byte 38); the backend adapters are not among the sources. -/
def formUrlEncode : FormData → ByteStr
  | [] => []
  | [(k, v)] => k ++ [61] ++ v
  | (k, v) :: e :: rest => k ++ [61] ++ v ++ [38] ++ formUrlEncode (e :: rest)

/-! ## The transport operations (`BaseClient`, `src/http/mod.rs` 36–72)

The trait declares `get`, `post`, `post_form`, `put`, `delete`; the
concrete adapters are not among the sources, so the single network
exchange each performs is modelled from the spec. -/

/-- The five REST verbs of the `BaseClient` trait. -/
inductive Verb where
  | get | post | postForm | put | delete
  deriving DecidableEq

/-- One wire request as the active backend sends it: verb, URL, the
effective headers, and the encoded body. -/
structure Request where
  verb : Verb
  url : ByteStr
  hdrs : HMap
  body : ByteStr

/-- A mock server: a function from the request sent to the reply. -/
abbrev MockServer := Request → ServerReply

/-- One call of a `BaseClient` method, with the arguments of the
corresponding trait method (`src/http/mod.rs` lines 38–71). -/
inductive Call where
  | get (url : ByteStr) (hs : Option Headers) (params : JVal)
  | post (url : ByteStr) (hs : Option Headers) (payload : JVal)
  | post_form (url : ByteStr) (hs : Option Headers) (payload : FormData)
  | put (url : ByteStr) (hs : Option Headers) (payload : JVal)
  | delete (url : ByteStr) (hs : Option Headers) (payload : JVal)

/-- The optional header map argument of a call. -/
def Call.headerArg : Call → Option Headers
  | .get _ hs _ => hs
  | .post _ hs _ => hs
  | .post_form _ hs _ => hs
  | .put _ hs _ => hs
  | .delete _ hs _ => hs

/-- Modelled from the spec: the wire request one call produces under a
backend with default headers `defaults` — effective headers per the
override rule, JSON body for `get`/`post`/`put`/`delete`, URL-encoded
form body for `post_form`. -/
def requestOf (defaults : HMap) : Call → Request
  | .get url hs params => ⟨.get, url, effectiveHeaders defaults hs, jsonEncode params⟩
  | .post url hs payload => ⟨.post, url, effectiveHeaders defaults hs, jsonEncode payload⟩
  | .post_form url hs payload =>
      ⟨.postForm, url, effectiveHeaders defaults hs, formUrlEncode payload⟩
  | .put url hs payload => ⟨.put, url, effectiveHeaders defaults hs, jsonEncode payload⟩
  | .delete url hs payload => ⟨.delete, url, effectiveHeaders defaults hs, jsonEncode payload⟩

/-- Modelled from the spec: the blocking adapter (`src/http/ureq.rs`,
not among the sources) performs exactly one network exchange
synchronously and classifies the outcome. -/
def runBlocking (defaults : HMap) (server : MockServer) (c : Call) : ClientResult ByteStr :=
  classify (server (requestOf defaults c))

/-- A cooperative computation: a value reached after finitely many
suspension points. -/
inductive Task (α : Type) where
  | done (a : α)
  | suspend (t : Task α)

/-- Drive a cooperative computation to completion. -/
def Task.run : Task α → α
  | .done a => a
  | .suspend t => t.run

/-- Modelled from the spec: the non-blocking adapter
(`src/http/reqwest.rs`, not among the sources) suspends at the
network-exchange point, then resumes with the classified outcome of the
same single exchange. -/
def runAsync (defaults : HMap) (server : MockServer) (c : Call) : Task (ClientResult ByteStr) :=
  .suspend (.done (classify (server (requestOf defaults c))))

end Rspotify

namespace Rspotify

/-- A header map whose keys are pairwise distinct after case
normalisation, as the keys of a `HashMap` are. -/
def CINodup (m : HMap) : Prop := (m.map fun kv => lowerKey kv.1).Nodup

instance (m : HMap) : Decidable (CINodup m) :=
  inferInstanceAs (Decidable (List.Nodup _))

theorem lookupCI_setHeader (d : HMap) (kv : ByteStr × ByteStr) (k : ByteStr) :
    lookupCI (setHeader d kv) k =
      if lowerKey kv.1 = lowerKey k then some kv.2 else lookupCI d k := by
  induction d with
  | nil => simp [setHeader, lookupCI]
  | cons e rest ih =>
      obtain ⟨k0, v0⟩ := e
      by_cases h1 : lowerKey k0 = lowerKey kv.1
      · by_cases h2 : lowerKey kv.1 = lowerKey k
        · simp [setHeader, h1, lookupCI, h2]
        · have h3 : ¬ lowerKey k0 = lowerKey k := by rw [h1]; exact h2
          simp [setHeader, h1, lookupCI, h2, h3]
      · by_cases h2 : lowerKey k0 = lowerKey k
        · have h3 : ¬ lowerKey kv.1 = lowerKey k := fun he => h1 (h2.trans he.symm)
          have h4 : ¬ lowerKey k = lowerKey kv.1 := fun he => h3 he.symm
          simp [setHeader, h1, lookupCI, h2, h3, h4]
        · simp [setHeader, h1, lookupCI, h2, ih]

theorem lookupCI_foldl_setHeader_of_none (m : HMap) : ∀ (d : HMap) (k : ByteStr),
    lookupCI m k = none → lookupCI (m.foldl setHeader d) k = lookupCI d k := by
  induction m with
  | nil => intro d k _; rfl
  | cons e rest ih =>
      intro d k h
      obtain ⟨k0, v0⟩ := e
      by_cases h1 : lowerKey k0 = lowerKey k
      · simp [lookupCI, h1] at h
      · simp only [lookupCI, if_neg h1] at h
        show lookupCI (List.foldl setHeader (setHeader d (k0, v0)) rest) k = lookupCI d k
        rw [ih (setHeader d (k0, v0)) k h, lookupCI_setHeader]
        simp [h1]

theorem lowerKey_mem_of_lookupCI_some (m : HMap) : ∀ (k v : ByteStr),
    lookupCI m k = some v → lowerKey k ∈ m.map (fun kv => lowerKey kv.1) := by
  induction m with
  | nil => intro k v h; simp [lookupCI] at h
  | cons e rest ih =>
      intro k v h
      obtain ⟨k0, v0⟩ := e
      by_cases h1 : lowerKey k0 = lowerKey k
      · simp [h1.symm]
      · simp only [lookupCI, if_neg h1] at h
        simp [ih k v h]

theorem lookupCI_foldl_setHeader_of_some (m : HMap) : ∀ (d : HMap) (k v : ByteStr),
    CINodup m → lookupCI m k = some v → lookupCI (m.foldl setHeader d) k = some v := by
  induction m with
  | nil => intro d k v _ h; simp [lookupCI] at h
  | cons e rest ih =>
      intro d k v hnd h
      obtain ⟨k0, v0⟩ := e
      simp only [CINodup, List.map, List.nodup_cons] at hnd
      obtain ⟨hnotmem, hnd'⟩ := hnd
      by_cases h1 : lowerKey k0 = lowerKey k
      · simp only [lookupCI, if_pos h1] at h
        rw [h1] at hnotmem
        have hnone : lookupCI rest k = none := by
          cases hr : lookupCI rest k with
          | none => rfl
          | some w => exact absurd (lowerKey_mem_of_lookupCI_some rest k w hr) hnotmem
        show lookupCI (List.foldl setHeader (setHeader d (k0, v0)) rest) k = some v
        rw [lookupCI_foldl_setHeader_of_none rest _ k hnone, lookupCI_setHeader]
        simp [h1, h]
      · simp only [lookupCI, if_neg h1] at h
        show lookupCI (List.foldl setHeader (setHeader d (k0, v0)) rest) k = some v
        exact ih (setHeader d (k0, v0)) k v hnd' h

theorem requestOf_hdrs (defaults : HMap) (c : Call) :
    (requestOf defaults c).hdrs = effectiveHeaders defaults c.headerArg := by
  cases c <;> rfl

/-- C2: `bearer_auth` returns exactly `"Bearer "` followed by the token,
for every token; in particular `bearer_auth "abc" = "Bearer abc"` and
`bearer_auth "" = "Bearer "` with the trailing space. -/
theorem bearer_auth_spec :
    (∀ token : ByteStr, headers.bearer_auth token = ascii "Bearer " ++ token) ∧
    headers.bearer_auth (ascii "abc") = ascii "Bearer abc" ∧
    headers.bearer_auth [] = ascii "Bearer " := by
  refine ⟨fun token => rfl, by decide, by decide⟩

/-- C1: `basic_auth user password` always returns `"Basic "` followed by
the standard base64 encoding (padding kept) of `user ++ ":" ++ password`
— it is a total function — and in particular
`basic_auth "user" "pass" = "Basic dXNlcjpwYXNz"`. -/
theorem basic_auth_spec :
    (∀ user password : ByteStr,
      headers.basic_auth user password =
        ascii "Basic " ++ headers.base64Encode (user ++ ascii ":" ++ password)) ∧
    headers.basic_auth (ascii "user") (ascii "pass") = ascii "Basic dXNlcjpwYXNz" := by
  refine ⟨fun user password => rfl, by decide⟩

/-- C8: the core exposes the named constant `headers.AUTHORIZATION` for
the canonical authorization header key, and its value is exactly the
string `"authorization"`, all of whose bytes are lower-case letters
(ASCII 97–122). -/
theorem authorization_constant_spec :
    headers.AUTHORIZATION = ascii "authorization" ∧
    headers.AUTHORIZATION.all (fun b => decide (97 ≤ b ∧ b ≤ 122)) = true := by
  refine ⟨rfl, by decide⟩

/-- C9: `basic_auth` is not injective in its two arguments: whenever
`u1 ++ ":" ++ p1 = u2 ++ ":" ++ p2` the two results coincide; in
particular `basic_auth "a:b" "c" = basic_auth "a" "b:c"`. -/
theorem basic_auth_not_injective :
    ∀ u1 p1 u2 p2 : ByteStr,
      u1 ++ ascii ":" ++ p1 = u2 ++ ascii ":" ++ p2 →
      headers.basic_auth u1 p1 = headers.basic_auth u2 p2 := by
  intro u1 p1 u2 p2 h
  unfold headers.basic_auth
  have h58 : u1 ++ [58] ++ p1 = u2 ++ [58] ++ p2 := h
  rw [h58]

/-- Witness for C9 at the concrete colon-shifted split
`("a:b", "c")` versus `("a", "b:c")`. -/
theorem basic_auth_not_injective_witness :
    headers.basic_auth (ascii "a:b") (ascii "c") =
      headers.basic_auth (ascii "a") (ascii "b:c") :=
  basic_auth_not_injective (ascii "a:b") (ascii "c") (ascii "a") (ascii "b:c") (by decide)

/-- C3: for every transport operation, when no header map is passed the
backend-default headers apply unchanged; when one is passed, every key
present in it (case-insensitively) overrides the default of that key,
and every default whose key is absent is retained. -/
theorem header_override_spec :
    (∀ (defaults : HMap) (c : Call), c.headerArg = none →
        (requestOf defaults c).hdrs = defaults) ∧
    (∀ (defaults m : HMap) (c : Call) (k v : ByteStr), c.headerArg = some m →
        CINodup m → lookupCI m k = some v →
        lookupCI (requestOf defaults c).hdrs k = some v) ∧
    (∀ (defaults m : HMap) (c : Call) (k : ByteStr), c.headerArg = some m →
        lookupCI m k = none →
        lookupCI (requestOf defaults c).hdrs k = lookupCI defaults k) := by
  refine ⟨?_, ?_, ?_⟩
  · intro d c h
    rw [requestOf_hdrs, h]
    rfl
  · intro d m c k v hc hnd hl
    rw [requestOf_hdrs, hc]
    exact lookupCI_foldl_setHeader_of_some m d k v hnd hl
  · intro d m c k hc hl
    rw [requestOf_hdrs, hc]
    exact lookupCI_foldl_setHeader_of_none m d k hl

/-- Witness for C3: defaults hold `authorization` and `accept`; a map
carrying `Authorization` (different case) overrides the former while
`accept` is retained, and passing no map keeps the defaults. -/
theorem header_override_spec_witness :
    (requestOf [(ascii "authorization", ascii "old"), (ascii "accept", ascii "json")]
        (.get (ascii "u") none .null)).hdrs =
      [(ascii "authorization", ascii "old"), (ascii "accept", ascii "json")] ∧
    lookupCI (requestOf [(ascii "authorization", ascii "old"), (ascii "accept", ascii "json")]
        (.get (ascii "u") (some [(ascii "Authorization", ascii "new")]) .null)).hdrs
      (ascii "authorization") = some (ascii "new") ∧
    lookupCI (requestOf [(ascii "authorization", ascii "old"), (ascii "accept", ascii "json")]
        (.get (ascii "u") (some [(ascii "Authorization", ascii "new")]) .null)).hdrs
      (ascii "accept") =
      lookupCI [(ascii "authorization", ascii "old"), (ascii "accept", ascii "json")]
        (ascii "accept") :=
  ⟨header_override_spec.1 _ _ rfl,
   header_override_spec.2.1 _ [(ascii "Authorization", ascii "new")] _
     (ascii "authorization") (ascii "new") rfl (by decide) (by decide),
   header_override_spec.2.2 _ [(ascii "Authorization", ascii "new")] _
     (ascii "accept") rfl (by decide)⟩

/-- C4: a 401 response with an auth-failure payload classifies as
`InvalidAuth`; every other 4xx/5xx response classifies as `Http` with
its status; a failed connection classifies as `Network` and never as
`Http`. -/
theorem error_taxonomy_spec :
    (∀ body : ByteStr, classify (.reply 401 true body) = .err (.InvalidAuth body)) ∧
    (∀ (s : Nat) (auth : Bool) (body : ByteStr), 400 ≤ s → s < 600 →
        ¬(s = 401 ∧ auth = true) →
        classify (.reply s auth body) = .err (.Http s body)) ∧
    (∀ cause : ByteStr, classify (.noConnection cause) = .err (.Network cause)) ∧
    (∀ (cause : ByteStr) (s : Nat) (body : ByteStr),
        classify (.noConnection cause) ≠ .err (.Http s body)) := by
  refine ⟨fun body => rfl, ?_, fun cause => rfl, ?_⟩
  · intro s auth body h1 h2 h3
    have hu : classify (.reply s auth body) =
        if 200 ≤ s ∧ s < 300 then ClientResult.ok body
        else if s = 401 ∧ auth = true then ClientResult.err (.InvalidAuth body)
        else ClientResult.err (.Http s body) := rfl
    rw [hu, if_neg (by omega), if_neg h3]
  · intro cause s body h
    simp [classify] at h

/-- Witness for C4: a plain 404 classifies as `Http 404`, and the
classification of a timed-out connection is not an `Http` failure. -/
theorem error_taxonomy_spec_witness :
    classify (.reply 404 false (ascii "nf")) = .err (.Http 404 (ascii "nf")) ∧
    classify (.noConnection (ascii "timeout")) ≠ .err (.Http 500 (ascii "x")) :=
  ⟨error_taxonomy_spec.2.1 404 false (ascii "nf") (by decide) (by decide) (by decide),
   error_taxonomy_spec.2.2.2 (ascii "timeout") 500 (ascii "x")⟩

/-- C5: against the same mock server, the blocking adapter and the
driven-to-completion non-blocking adapter produce identical
`ClientResult` classifications and identical response bodies for every
sequence of calls. -/
theorem backend_equivalence :
    ∀ (defaults : HMap) (server : MockServer) (calls : List Call),
      calls.map (runBlocking defaults server) =
        calls.map (fun c => (runAsync defaults server c).run) := by
  intro d s calls
  induction calls with
  | nil => rfl
  | cons c rest ih =>
      simp only [List.map]
      rw [ih]
      rfl

/-- C6: for every transport operation, a 2xx response makes both
adapters return the complete response body exactly as the server sent
it, with no decoding applied. -/
theorem success_returns_body :
    ∀ (defaults : HMap) (server : MockServer) (c : Call) (s : Nat) (auth : Bool)
      (body : ByteStr),
      server (requestOf defaults c) = .reply s auth body →
      200 ≤ s → s < 300 →
      runBlocking defaults server c = .ok body ∧
      (runAsync defaults server c).run = .ok body := by
  intro d sv c s auth body hs h1 h2
  have hc : classify (sv (requestOf d c)) = .ok body := by
    rw [hs]
    have hu : classify (.reply s auth body) =
        if 200 ≤ s ∧ s < 300 then ClientResult.ok body
        else if s = 401 ∧ auth = true then ClientResult.err (.InvalidAuth body)
        else ClientResult.err (.Http s body) := rfl
    rw [hu, if_pos ⟨h1, h2⟩]
  exact ⟨hc, hc⟩

/-- Witness for C6: a server answering 200 with body `"hi"` makes a
`get` call return exactly `"hi"` through both adapters. -/
theorem success_returns_body_witness :
    runBlocking [] (fun _ => .reply 200 false (ascii "hi"))
      (.get (ascii "u") none .null) = .ok (ascii "hi") ∧
    (runAsync [] (fun _ => .reply 200 false (ascii "hi"))
      (.get (ascii "u") none .null)).run = .ok (ascii "hi") :=
  success_returns_body [] (fun _ => .reply 200 false (ascii "hi"))
    (.get (ascii "u") none .null) 200 false (ascii "hi") rfl (by decide) (by decide)

/-- C7: `post_form` sends its payload `application/x-www-form-urlencoded`
(`key1=value1&key2=value2` style, bytes 61 `=` and 38 `&`), which is not
the JSON encoding, while `get`, `post`, `put` and `delete` send their
payloads JSON-encoded. -/
theorem body_encoding_spec :
    (∀ (d : HMap) (url : ByteStr) (hs : Option Headers) (payload : FormData),
        (requestOf d (.post_form url hs payload)).body = formUrlEncode payload) ∧
    (∀ k1 v1 k2 v2 : ByteStr,
        formUrlEncode [(k1, v1), (k2, v2)] =
          k1 ++ [61] ++ v1 ++ [38] ++ (k2 ++ [61] ++ v2)) ∧
    (∀ (d : HMap) (url : ByteStr) (hs : Option Headers) (p : JVal),
        (requestOf d (.get url hs p)).body = jsonEncode p ∧
        (requestOf d (.post url hs p)).body = jsonEncode p ∧
        (requestOf d (.put url hs p)).body = jsonEncode p ∧
        (requestOf d (.delete url hs p)).body = jsonEncode p) ∧
    formUrlEncode [(ascii "a", ascii "b")] ≠
      jsonEncode (.obj [(ascii "a", .str (ascii "b"))]) := by
  refine ⟨fun d url hs payload => rfl, fun k1 v1 k2 v2 => rfl,
    fun d url hs p => ⟨rfl, rfl, rfl, rfl⟩, ?_⟩
  simp [formUrlEncode, jsonEncode, jsonEncodeObj, jsonEscape, ascii]

/-- C10: `Headers` and `FormData` are definitionally the same type, both
aliases of the same map-from-string-to-string type, so every value of
one is a value of the other. -/
theorem headers_formdata_same_type :
    Headers = FormData ∧
    Headers = List (ByteStr × ByteStr) ∧
    FormData = List (ByteStr × ByteStr) :=
  ⟨rfl, rfl, rfl⟩

end Rspotify
